import Mathlib

/-!
Shallow embedding of the orchestration core of the SPIFFE sidecar
(Go package `sidecar`): daemon result handling, credential fetch
sequencing, the retry/refresh schedulers of the per-audience JWT SVID
loop, health (write status) bookkeeping, the child-process signalling
path, and command argument splitting.

Each definition mirrors the corresponding Go function. External
collaborators (the Workload API client, the disk writer, OS process
start and signal delivery) enter as explicit result parameters
(oracles): the sidecar only branches on the values and errors those
calls return. Go `time.Duration` values are modelled as integers in
nanoseconds; Go integer division truncates toward zero (`Int.tdiv`).
-/

/-- One nanosecond-count for Go `time.Second`. -/
def second : Nat := 1000000000

/-- Tri-state file write status: the constants `writeStatusUnwritten`,
`writeStatusFailed`, `writeStatusWritten`. -/
inductive WStatus
  | unwritten
  | failed
  | written
  deriving DecidableEq, Repr

/-- Go `error` values as the sidecar distinguishes them: an error that
`errors.Is(err, context.Canceled)` recognises, or any other error. -/
inductive GoError
  | canceled
  | other (msg : String)
  deriving DecidableEq, Repr

/-- `errors.Is(err, context.Canceled)` on a non-nil error. -/
def errorsIsCanceled : GoError → Bool
  | .canceled => true
  | .other _ => false

/-- Tail of `RunDaemon`, from the source:
`err := util.RunTasks(ctx, tasks...); if err != nil && !errors.Is(err, context.Canceled) { return nil }; return err`.
The parameter is the aggregate result of the spawned tasks
(`none` = nil error). -/
def runDaemonResult (err : Option GoError) : Option GoError :=
  match err with
  | some e => if !errorsIsCanceled e then none else some e
  | none => none

/-- Constant `initialBackoff = 1 * time.Second` of `createRetryIntervalFunc`. -/
def initialBackoff : Nat := second

/-- Constant `maxBackoff = 60 * time.Second` of `createRetryIntervalFunc`. -/
def maxBackoff : Nat := 60 * second

/-- Constant `multiplier = 2` of `createRetryIntervalFunc`. -/
def backoffMultiplier : Nat := 2

/-- One call of the closure returned by `createRetryIntervalFunc`:
given the captured `backoffInterval`, return the current interval and
the updated `backoffInterval` (doubled, clamped at `maxBackoff`). -/
def retryStep (backoffInterval : Nat) : Nat × Nat :=
  let currentBackoff := backoffInterval
  let next := backoffInterval * backoffMultiplier
  let next := if next > maxBackoff then maxBackoff else next
  (currentBackoff, next)

/-- Captured `backoffInterval` of one generator after `n` calls
(a fresh generator is at `n = 0`). -/
def retryState : Nat → Nat
  | 0 => initialBackoff
  | n + 1 => (retryStep (retryState n)).2

/-- Interval returned by call number `n` (counting from 0) of one
generator created by `createRetryIntervalFunc`. -/
def retryReturn (n : Nat) : Nat := (retryStep (retryState n)).1

/-- The only field of a fetched JWT SVID the scheduler reads:
`svid.Expiry`, as nanoseconds since the epoch. -/
structure JWTSVID where
  expiry : Int
  deriving DecidableEq, Repr

/-- `getRefreshInterval`: `time.Until(svid.Expiry)/2 + time.Second`
evaluated at current time `now`; `time.Until(e) = e - now`. -/
def getRefreshInterval (now : Int) (svid : JWTSVID) : Int :=
  Int.tdiv (svid.expiry - now) 2 + (second : Int)

/-- One entry of `config.JWTSVIDs`. -/
structure JWTConfig where
  jwtAudience : String
  jwtExtraAudiences : List String
  jwtSVIDFilename : String
  deriving DecidableEq, Repr

/-- The fields of `sidecar.Config` that the modelled code branches on. -/
structure Config where
  cmd : String
  cmdArgs : String
  pidFilename : String
  certDir : String
  svidFilename : String
  svidKeyFilename : String
  svidBundleFilename : String
  jwtBundleFilename : String
  jwtSVIDs : List JWTConfig
  parallelRequests : Int
  renewSignal : String
  deriving Repr

/-- `s.x509Enabled()`. -/
def x509Enabled (c : Config) : Bool :=
  c.svidFilename ≠ "" && c.svidKeyFilename ≠ "" && c.svidBundleFilename ≠ ""

/-- `s.jwtBundleEnabled()`. -/
def jwtBundleEnabled (c : Config) : Bool :=
  c.jwtBundleFilename ≠ ""

/-- `s.jwtSVIDsEnabled()`. -/
def jwtSVIDsEnabled (c : Config) : Bool :=
  c.jwtSVIDs.length > 0

/-- Go `path.Join` of the certificate directory and a file name.
`path.Join` additionally cleans the joined path; the sidecar only uses
the result as an opaque map key, built by the same call at setup and
at update time, so the embedding keeps the joined string uncleaned. -/
def pathJoin (dir file : String) : String := dir ++ "/" ++ file

/-- Assignment `m[k] = v` on a Go `map[string]string`, on an
association-list model of the map (replace the entry if the key is
present, append it otherwise). -/
def mapSet (m : List (String × WStatus)) (k : String) (v : WStatus) :
    List (String × WStatus) :=
  match m with
  | [] => [(k, v)]
  | (k0, v0) :: rest => if k0 = k then (k, v) :: rest else (k0, v0) :: mapSet rest k v

/-- Lookup `m[k]` on the association-list model of a Go map. -/
def mapGet (m : List (String × WStatus)) (k : String) : Option WStatus :=
  match m with
  | [] => none
  | (k0, v0) :: rest => if k0 = k then some v0 else mapGet rest k

/-- `FileWriteStatuses`: the optional X.509 status (a `*string`, `none`
while the pointer is nil) and the `JWTWriteStatus` map. -/
structure FileWriteStatuses where
  x509WriteStatus : Option WStatus
  jwtWriteStatus : List (String × WStatus)
  deriving DecidableEq, Repr

/-- `setupHealth`: mark every enabled resource `unwritten`. -/
def setupHealth (c : Config) (h : FileWriteStatuses) : FileWriteStatuses :=
  let h := if x509Enabled c then { h with x509WriteStatus := some .unwritten } else h
  let h := if jwtBundleEnabled c then
      { h with jwtWriteStatus :=
          mapSet h.jwtWriteStatus (pathJoin c.certDir c.jwtBundleFilename) .unwritten }
    else h
  c.jwtSVIDs.foldl
    (fun h j =>
      { h with jwtWriteStatus :=
          mapSet h.jwtWriteStatus (pathJoin c.certDir j.jwtSVIDFilename) .unwritten })
    h

/-- Health state built by `New`: a nil X.509 pointer and an empty JWT
map, then `setupHealth`. -/
def newHealth (c : Config) : FileWriteStatuses :=
  setupHealth c { x509WriteStatus := none, jwtWriteStatus := [] }

/-- Health effect of `updateCertificates`: the X.509 status becomes
`failed` when `disk.WriteX509Context` errors, `written` otherwise
(the signalling side effects that follow do not touch health). -/
def updateCertificatesHealth (writeOk : Bool) (h : FileWriteStatuses) :
    FileWriteStatuses :=
  if writeOk then { h with x509WriteStatus := some .written }
  else { h with x509WriteStatus := some .failed }

/-- Health effect of `JWTBundlesWatcher.OnJWTBundlesUpdate`: the JWT
bundle path becomes `failed` when `disk.WriteJWTBundleSet` errors,
`written` otherwise. -/
def onJWTBundlesUpdateHealth (c : Config) (writeOk : Bool)
    (h : FileWriteStatuses) : FileWriteStatuses :=
  let p := pathJoin c.certDir c.jwtBundleFilename
  if writeOk then { h with jwtWriteStatus := mapSet h.jwtWriteStatus p .written }
  else { h with jwtWriteStatus := mapSet h.jwtWriteStatus p .failed }

/-- Validation loop of `fetchJWTSVIDs`: return the first
`jwtsvid.ParseAndValidate` error, `none` when every token validates. -/
def validateAll (validate : JWTSVID → Option GoError) :
    List JWTSVID → Option GoError
  | [] => none
  | s :: rest =>
    match validate s with
    | some e => some e
    | none => validateAll validate rest

/-- `fetchJWTSVIDs`: the Workload API fetch result (`fetched`), then
validation of every returned token; the first error aborts. -/
def fetchJWTSVIDs (fetched : Except GoError (List JWTSVID))
    (validate : JWTSVID → Option GoError) : Except GoError (List JWTSVID) :=
  match fetched with
  | .error e => .error e
  | .ok jwtSVIDs =>
    match validateAll validate jwtSVIDs with
    | some e => .error e
    | none => .ok jwtSVIDs

/-- `performJWTSVIDUpdate`: fetch (and validate) the SVIDs, then write
them; `writeErr` is the result of `disk.WriteJWTSVID`. Returns the
updated health and the function result. A fetch error leaves health
untouched; a write error marks the SVID path `failed`; success marks
it `written`. -/
def performJWTSVIDUpdate (c : Config) (jwtSVIDFilename : String)
    (fetched : Except GoError (List JWTSVID))
    (validate : JWTSVID → Option GoError) (writeErr : Option GoError)
    (h : FileWriteStatuses) :
    FileWriteStatuses × Except GoError (List JWTSVID) :=
  match fetchJWTSVIDs fetched validate with
  | .error e => (h, .error e)
  | .ok jwtSVIDs =>
    let jwtSVIDPath := pathJoin c.certDir jwtSVIDFilename
    match writeErr with
    | some e => ({ h with jwtWriteStatus := mapSet h.jwtWriteStatus jwtSVIDPath .failed }, .error e)
    | none => ({ h with jwtWriteStatus := mapSet h.jwtWriteStatus jwtSVIDPath .written }, .ok jwtSVIDs)

/-- Initialisation of `updateJWTSVID` before its loop: a fresh retry
generator, one update, then the initial ticker interval — on failure
the generator's first interval, on success
`getRefreshInterval(jwtSVIDs[0])`. Returns the new health, the
generator's captured interval afterwards, and the ticker interval;
`none` as ticker interval models the Go index-out-of-range panic of
`jwtSVIDs[0]` on an empty slice. -/
def updateJWTSVIDInit (c : Config) (jwtSVIDFilename : String) (now : Int)
    (fetched : Except GoError (List JWTSVID))
    (validate : JWTSVID → Option GoError) (writeErr : Option GoError)
    (h : FileWriteStatuses) : FileWriteStatuses × Nat × Option Int :=
  let r := performJWTSVIDUpdate c jwtSVIDFilename fetched validate writeErr h
  match r.2 with
  | .error _ => (r.1, (retryStep initialBackoff).2, some ((retryStep initialBackoff).1 : Int))
  | .ok jwtSVIDs =>
    match jwtSVIDs.head? with
    | some svid => (r.1, initialBackoff, some (getRefreshInterval now svid))
    | none => (r.1, initialBackoff, none)

/-- One `<-ticker.C` iteration of the `updateJWTSVID` loop, with the
retry generator's captured interval `backoff` on entry: on success the
generator is replaced by a fresh one and the ticker reset to
`getRefreshInterval(jwtSVIDs[0])`; on failure the ticker is reset to
the generator's next interval. Returns the new health, the generator
state afterwards, and the ticker interval; `none` as ticker interval
models the Go index-out-of-range panic of `jwtSVIDs[0]` on an empty
slice. -/
def updateJWTSVIDTick (c : Config) (jwtSVIDFilename : String) (now : Int)
    (fetched : Except GoError (List JWTSVID))
    (validate : JWTSVID → Option GoError) (writeErr : Option GoError)
    (backoff : Nat) (h : FileWriteStatuses) :
    FileWriteStatuses × Nat × Option Int :=
  let r := performJWTSVIDUpdate c jwtSVIDFilename fetched validate writeErr h
  match r.2 with
  | .error _ => (r.1, (retryStep backoff).2, some ((retryStep backoff).1 : Int))
  | .ok jwtSVIDs =>
    match jwtSVIDs.head? with
    | some svid => (r.1, initialBackoff, some (getRefreshInterval now svid))
    | none => (r.1, initialBackoff, none)

/-- The three fetch-and-write steps of one `fetchAllCredentials`
cycle, in source order. -/
inductive Step
  | x509
  | jwtBundle
  | jwtSVIDs
  deriving DecidableEq, Repr

/-- Results of the three step functions (`fetchAndWriteX509Context`,
`fetchAndWriteJWTBundle`, `fetchAndWriteJWTSVIDs`) for one cycle;
their bodies live outside the excerpted source, and
`fetchAllCredentials` only branches on the error each returns, so they
enter as oracles. -/
structure StepResults where
  x509 : Option GoError
  jwtBundle : Option GoError
  jwtSVIDs : Option GoError
  deriving DecidableEq, Repr

/-- Result of the step function for a given step. -/
def stepResult (o : StepResults) : Step → Option GoError
  | .x509 => o.x509
  | .jwtBundle => o.jwtBundle
  | .jwtSVIDs => o.jwtSVIDs

/-- Third block of `fetchAllCredentials` (JWT SVIDs), carrying the
list of steps attempted so far. -/
def fetchStepsJWTSVIDs (c : Config) (o : StepResults) (done : List Step) :
    List Step × Option GoError :=
  if jwtSVIDsEnabled c then (done ++ [Step.jwtSVIDs], o.jwtSVIDs)
  else (done, none)

/-- Second block of `fetchAllCredentials` (JWT bundle): on error
return it at once, otherwise fall through to the JWT SVIDs block. -/
def fetchStepsJWTBundle (c : Config) (o : StepResults) (done : List Step) :
    List Step × Option GoError :=
  if jwtBundleEnabled c then
    match o.jwtBundle with
    | some e => (done ++ [Step.jwtBundle], some e)
    | none => fetchStepsJWTSVIDs c o (done ++ [Step.jwtBundle])
  else fetchStepsJWTSVIDs c o done

/-- `fetchAllCredentials`: the enabled steps in source order with an
immediate return on the first error. Alongside the returned error the
embedding records, in order, the steps the cycle attempted. -/
def fetchAllCredentials (c : Config) (o : StepResults) :
    List Step × Option GoError :=
  if x509Enabled c then
    match o.x509 with
    | some e => ([Step.x509], some e)
    | none => fetchStepsJWTBundle c o [Step.x509]
  else fetchStepsJWTBundle c o []

/-- Stated from the claim: the enabled steps in the fixed order X.509
context, then JWT bundle, then JWT SVIDs. -/
def enabledSteps (c : Config) : List Step :=
  (if x509Enabled c then [Step.x509] else []) ++
  (if jwtBundleEnabled c then [Step.jwtBundle] else []) ++
  (if jwtSVIDsEnabled c then [Step.jwtSVIDs] else [])

/-- Stated from the claim: attempt the given steps in order, stopping
at (and returning) the first failure; succeed when all succeed. -/
def specRun (o : StepResults) : List Step → List Step × Option GoError
  | [] => ([], none)
  | s :: rest =>
    match stepResult o s with
    | some e => ([s], some e)
    | none =>
      let r := specRun o rest
      (s :: r.1, r.2)

/-- A resource whose write status the health state tracks: the X.509
material, or a JWT file under a given path. -/
inductive Resource
  | x509Res
  | jwtFile (p : String)
  deriving DecidableEq, Repr

/-- The write status of a resource in a health state. -/
def statusOf (h : FileWriteStatuses) : Resource → Option WStatus
  | .x509Res => h.x509WriteStatus
  | .jwtFile p => mapGet h.jwtWriteStatus p

/-- The update operations that touch the health state after setup:
`updateCertificates`, `OnJWTBundlesUpdate` and
`performJWTSVIDUpdate`, each with the oracle results it branches
on. -/
inductive HealthOp
  | updX509 (writeOk : Bool)
  | updJWTBundle (writeOk : Bool)
  | updJWTSVID (jwtSVIDFilename : String)
      (fetched : Except GoError (List JWTSVID))
      (validate : JWTSVID → Option GoError) (writeErr : Option GoError)

/-- Health effect of one update operation. -/
def applyHealthOp (c : Config) (h : FileWriteStatuses) :
    HealthOp → FileWriteStatuses
  | .updX509 ok => updateCertificatesHealth ok h
  | .updJWTBundle ok => onJWTBundlesUpdateHealth c ok h
  | .updJWTSVID f fetched validate writeErr =>
    (performJWTSVIDUpdate c f fetched validate writeErr h).1

/-- Stated from the claim: a write status step is admissible when the
status is unchanged or moves into `written` or `failed` — exactly the
transitions {U→W, U→F, W→F, F→W, W→W, F→F}; in particular a status is
never set (back) to `unwritten`. -/
def transitionOK (o n : Option WStatus) : Bool :=
  o = n || n = some WStatus.written || n = some WStatus.failed

/-- Dereference of the `*string` X.509 status pointer. A nil pointer
would panic in Go; in the states the program reaches, the pointer is
set whenever the X.509 material is enabled (the health theorems carry
that hypothesis), so the `none` default is never observed. -/
def derefStatus : Option WStatus → WStatus
  | some s => s
  | none => .unwritten

/-- `CheckLiveness`: false as soon as one JWT status is `failed`, or
the X.509 material is enabled with a `failed` status. -/
def CheckLiveness (c : Config) (h : FileWriteStatuses) : Bool :=
  if h.jwtWriteStatus.any (fun kv => kv.2 == WStatus.failed) then false
  else if x509Enabled c && (derefStatus h.x509WriteStatus == WStatus.failed) then false
  else true

/-- `CheckReadiness`: false as soon as one JWT status differs from
`written`; otherwise require the X.509 status to be `written` when
enabled. -/
def CheckReadiness (c : Config) (h : FileWriteStatuses) : Bool :=
  if h.jwtWriteStatus.any (fun kv => !(kv.2 == WStatus.written)) then false
  else !(x509Enabled c) || (derefStatus h.x509WriteStatus == WStatus.written)

/-- Errors `csv.Reader.Read` can produce on a single record with the
configuration `getCmdArgs` uses (`Comma = ' '`, defaults otherwise):
end of input before any record (`io.EOF`), a bare quote in an
unquoted field (`ErrBareQuote`), an extraneous or missing quote in a
quoted field (`ErrQuote`). -/
inductive CsvErr
  | eof
  | bareQuote
  | quote
  deriving DecidableEq, Repr

/-- Character class of an unquoted field: anything but the space comma
and the record-ending newline (`csv.Reader` finds the comma with
`IndexRune` and strips the newline with `lengthNL`). -/
def fieldChar (c : Char) : Bool := !(c == ' ') && !(c == '\n')

mutual

/-- Field loop of `csv.Reader.readRecord` at an unquoted-field start:
the field runs to the comma or the end of the record; a quote inside
it is `ErrBareQuote` (LazyQuotes is off); after a comma the next field
starts, otherwise the record is complete. -/
def parseField : List Char → List (List Char) → Except CsvErr (List String)
  | [], fields => .ok ((fields ++ [[]]).map String.mk)
  | c :: rest, fields =>
    if c = '"' then parseQuoted rest [] fields
    else
      let f := (c :: rest).takeWhile fieldChar
      if f.contains '"' then .error .bareQuote
      else
        match hb : (c :: rest).dropWhile fieldChar with
        | c2 :: rest2 =>
          if c2 = ' ' then parseField rest2 (fields ++ [f])
          else .ok ((fields ++ [f]).map String.mk)
        | [] => .ok ((fields ++ [f]).map String.mk)
termination_by s _ => s.length
decreasing_by
  all_goals simp_wf
  all_goals try omega
  all_goals
    (have hlen : ∀ l : List Char, (List.dropWhile fieldChar l).length ≤ l.length := by
       intro l
       induction l with
       | nil => simp
       | cons x xs ih =>
         rw [List.dropWhile_cons]
         split
         · simp
           omega
         · simp
     have h2 := hlen (c :: rest)
     rw [hb] at h2
     simp only [List.length_cons] at h2 ⊢
     omega)

/-- Quoted-field loop of `csv.Reader.readRecord`, after the opening
quote: content runs to the next quote (newlines included — a quoted
field may span lines); a doubled quote is an escaped quote; a quote
followed by the comma ends the field, followed by the record end ends
the record, followed by anything else is `ErrQuote`; so is the end of
the input inside the field. -/
def parseQuoted : List Char → List Char → List (List Char) → Except CsvErr (List String)
  | [], _, _ => .error .quote
  | c :: rest, acc, fields =>
    if c = '"' then
      match rest with
      | [] => .ok ((fields ++ [acc]).map String.mk)
      | c2 :: rest2 =>
        if c2 = '"' then parseQuoted rest2 (acc ++ ['"']) fields
        else if c2 = ' ' then parseField rest2 (fields ++ [acc])
        else if c2 = '\n' then .ok ((fields ++ [acc]).map String.mk)
        else .error .quote
    else parseQuoted rest (acc ++ [c]) fields
termination_by s _ _ => s.length
decreasing_by
  all_goals simp_wf
  all_goals omega

end

/-- Newline normalisation `csv.Reader.readLine` applies over the whole
input: every CRLF becomes LF, and a CR ending the input (a final line
without newline, read at EOF) is dropped; any other CR is an ordinary
character. -/
def normalizeCRLF : List Char → List Char
  | [] => []
  | [c] => if c = '\r' then [] else [c]
  | c :: c2 :: rest =>
    if c = '\r' then
      if c2 = '\n' then '\n' :: normalizeCRLF rest
      else c :: normalizeCRLF (c2 :: rest)
    else c :: normalizeCRLF (c2 :: rest)

/-- Blank-line skipping of `csv.Reader.readRecord` before a record:
after normalisation a blank line is a lone LF. -/
def skipBlankLines : List Char → List Char
  | [] => []
  | c :: rest => if c = '\n' then skipBlankLines rest else c :: rest

/-- `csv.Reader.Read` for a single record with `Comma = ' '` and
default options: normalise newlines, skip blank lines (end of input
there is `io.EOF`), then parse one record. -/
def csvReadRecord (s : String) : Except CsvErr (List String) :=
  match skipBlankLines (normalizeCRLF s.data) with
  | [] => .error .eof
  | c :: rest => parseField (c :: rest) []

/-- `getCmdArgs`: an empty argument string yields an empty argument
list and no error; otherwise the first CSV record of the string, with
a space comma. -/
def getCmdArgs (args : String) : Except CsvErr (List String) :=
  if args = "" then .ok []
  else csvReadRecord args

/-- Stated from the claim: the space-delimited fields of a string,
with no quoting involved. -/
def spaceFields : List Char → List (List Char)
  | [] => [[]]
  | c :: rest =>
    if c = ' ' then [] :: spaceFields rest
    else
      match spaceFields rest with
      | f :: fs => (c :: f) :: fs
      | [] => [[c]]

/-- The child-process bookkeeping `signalProcess` guards with `s.mu`:
the `processRunning` flag and the stored `*os.Process` (as its pid). -/
structure ProcState where
  processRunning : Bool
  process : Option Nat
  deriving DecidableEq, Repr

/-- Observable action of one `signalProcess` invocation. -/
inductive SignalOutcome
  | spawned (pid : Nat)
  | signaled (pid : Option Nat)
  | argsError (e : CsvErr)
  | startError
  deriving DecidableEq, Repr

/-- One `signalProcess` invocation. Its whole body runs between
`s.mu.Lock()` and the deferred unlock, so concurrent invocations
serialise into a sequence of these steps. When no child runs: parse
`c.cmdArgs` with the embedded `getCmdArgs`, start the child
(`startPid` is the `cmd.Start` oracle — the new pid, or `none` for a
start error), record the handle and flip the flag. When a child runs:
deliver the renewal signal to the stored process (a `SignalProcess`
error is returned to the caller but changes no state, so it needs no
oracle for the spawn/signal claim). -/
def signalProcessStep (c : Config) (startPid : Option Nat) (st : ProcState) :
    ProcState × SignalOutcome :=
  if !st.processRunning then
    match getCmdArgs c.cmdArgs with
    | .error e => (st, .argsError e)
    | .ok _ =>
      match startPid with
      | none => (st, .startError)
      | some pid => ({ processRunning := true, process := some pid }, .spawned pid)
  else (st, .signaled st.process)

/-- A serialisation of several `signalProcess` invocations (`s.mu`
admits exactly these interleavings), with one `cmd.Start` oracle per
invocation; returns the final state and each invocation's outcome in
order. -/
def signalProcessRun (c : Config) (starts : List (Option Nat)) (st : ProcState) :
    ProcState × List SignalOutcome :=
  match starts with
  | [] => (st, [])
  | o :: rest =>
    let r := signalProcessStep c o st
    let r2 := signalProcessRun c rest r.1
    (r2.1, r.2 :: r2.2)

/-- Point-in-time copy returned by `GetHealth` (`return s.health`): Go
copies the struct by value, which copies the `X509WriteStatus` pointer
and the `JWTWriteStatus` map reference. The single map object the
sidecar ever allocates (in `New`) lives in the store and is aliased by
every copy, so the snapshot value itself carries only the pointer. -/
structure HealthSnap where
  x509Ptr : Option Nat
  deriving DecidableEq, Repr

/-- Reference-level state for the snapshot claim: the allocated status
string cells (address and value), a bump allocator, the single
`JWTWriteStatus` map object, and the sidecar's current
`X509WriteStatus` pointer. -/
structure SidecarStore where
  cells : List (Nat × WStatus)
  nextAddr : Nat
  jwtMap : List (String × WStatus)
  x509Ptr : Option Nat
  deriving DecidableEq, Repr

/-- Value of an allocated status cell. -/
def cellGet (cells : List (Nat × WStatus)) (a : Nat) : Option WStatus :=
  match cells with
  | [] => none
  | (a0, v) :: rest => if a0 = a then some v else cellGet rest a

/-- `GetHealth`: `return s.health`, the struct copy. -/
def GetHealth (st : SidecarStore) : HealthSnap :=
  { x509Ptr := st.x509Ptr }

/-- The X.509 status read through a snapshot: dereference the pointer
the snapshot holds, in the current store. -/
def snapX509 (st : SidecarStore) (snap : HealthSnap) : Option WStatus :=
  match snap.x509Ptr with
  | some a => cellGet st.cells a
  | none => none

/-- A JWT status read through a snapshot: every snapshot copy aliases
the store's one map object, so the lookup does not depend on which
snapshot it goes through. -/
def snapJWT (st : SidecarStore) (_ : HealthSnap) (p : String) : Option WStatus :=
  mapGet st.jwtMap p

/-- The status write of `updateCertificates`
(`writeStatus := ...; s.health...X509WriteStatus = &writeStatus`): a
fresh local string is allocated and the sidecar's pointer replaced;
previously returned snapshots keep the old pointer. -/
def updateCertificatesStore (writeOk : Bool) (st : SidecarStore) : SidecarStore :=
  let v := if writeOk then WStatus.written else WStatus.failed
  { st with
      cells := (st.nextAddr, v) :: st.cells
      nextAddr := st.nextAddr + 1
      x509Ptr := some st.nextAddr }

/-- The JWT status write `s.health...JWTWriteStatus[p] = v`, shared by
the JWT bundle watcher and `performJWTSVIDUpdate`: an in-place update
of the single map object, visible through every copy. -/
def setJWTStatusStore (p : String) (v : WStatus) (st : SidecarStore) : SidecarStore :=
  { st with jwtMap := mapSet st.jwtMap p v }

/-- Store-level status write of a successful (`ok = true`) or failed
`performJWTSVIDUpdate` for a configured file name. -/
def performJWTSVIDUpdateStore (c : Config) (f : String) (ok : Bool)
    (st : SidecarStore) : SidecarStore :=
  setJWTStatusStore (pathJoin c.certDir f) (if ok then WStatus.written else WStatus.failed) st

/-- The store `New` and `setupHealth` build, at the reference level. -/
def newStore (c : Config) : SidecarStore :=
  let st : SidecarStore := { cells := [], nextAddr := 0, jwtMap := [], x509Ptr := none }
  let st := if x509Enabled c then
      { st with
          cells := (st.nextAddr, WStatus.unwritten) :: st.cells
          nextAddr := st.nextAddr + 1
          x509Ptr := some st.nextAddr }
    else st
  let st := if jwtBundleEnabled c then
      setJWTStatusStore (pathJoin c.certDir c.jwtBundleFilename) WStatus.unwritten st
    else st
  c.jwtSVIDs.foldl
    (fun st j => setJWTStatusStore (pathJoin c.certDir j.jwtSVIDFilename) WStatus.unwritten st)
    st

/-- A JWT-SVID-only configuration (one audience, file `f` under
directory `d`), as a concrete scenario input. -/
def cfgJWTOnly : Config :=
  ⟨"", "", "", "d", "", "", "", "", [⟨"aud", [], "f"⟩], 0, ""⟩

/-- Bounds invariant of the captured backoff interval. -/
theorem retryState_bounds (n : Nat) :
    initialBackoff ≤ retryState n ∧ retryState n ≤ maxBackoff := by
  induction n with
  | zero =>
    constructor
    · exact Nat.le_refl _
    · simp [retryState, initialBackoff, maxBackoff, second]
  | succ n ih =>
    obtain ⟨h1, h2⟩ := ih
    constructor
    · simp only [retryState, retryStep]
      split
      · calc initialBackoff ≤ retryState n := h1
          _ ≤ maxBackoff := h2
      · calc initialBackoff ≤ retryState n := h1
          _ ≤ retryState n * backoffMultiplier := by
              simp [backoffMultiplier]; omega
    · simp only [retryState, retryStep]
      split
      · exact Nat.le_refl _
      · omega

/-- The value returned by a call is the captured interval on entry. -/
theorem retryReturn_eq (n : Nat) : retryReturn n = retryState n := rfl

/-- C4: for every JWT SVID with expiry `E` evaluated at current time
`T`, `getRefreshInterval` returns exactly `(E − T)/2 + 1s` (Go
truncating division), and the value is strictly positive whenever
`E > T`. -/
theorem getRefreshInterval_spec (now : Int) (svid : JWTSVID) :
    getRefreshInterval now svid = Int.tdiv (svid.expiry - now) 2 + (second : Int) ∧
    (now < svid.expiry → 0 < getRefreshInterval now svid) := by
  refine ⟨rfl, fun h => ?_⟩
  have h1 : (0 : Int) ≤ Int.tdiv (svid.expiry - now) 2 :=
    Int.tdiv_nonneg (by omega) (by omega)
  have h2 : (0 : Int) < (second : Int) := by norm_num [second]
  unfold getRefreshInterval
  omega

/-- Witness for C4 at a concrete input: `E = 5s`, `T = 0`. -/
theorem getRefreshInterval_spec_witness :
    (0 : Int) < (⟨5000000000⟩ : JWTSVID).expiry ∧
    0 < getRefreshInterval 0 ⟨5000000000⟩ :=
  ⟨by decide, (getRefreshInterval_spec 0 ⟨5000000000⟩).2 (by decide)⟩

/-- C3: the intervals returned by one generator start at exactly 1s,
are non-decreasing, each successor is exactly twice its predecessor
except when clamped at the 60s maximum, no value exceeds 60s, and the
success branch of the `updateJWTSVID` loop replaces the generator with
a fresh one, whose next returned value is exactly 1s again. -/
theorem createRetryIntervalFunc_spec :
    retryReturn 0 = second ∧
    (∀ n, retryReturn n ≤ retryReturn (n + 1)) ∧
    (∀ n, retryReturn (n + 1) =
      if maxBackoff < retryReturn n * backoffMultiplier then maxBackoff
      else retryReturn n * backoffMultiplier) ∧
    (∀ n, retryReturn n ≤ maxBackoff) ∧
    (∀ c f now fetched validate writeErr backoff h,
      ((performJWTSVIDUpdate c f fetched validate writeErr h).2).isOk = true →
      (updateJWTSVIDTick c f now fetched validate writeErr backoff h).2.1 = initialBackoff ∧
      retryReturn 0 = second) := by
  refine ⟨rfl, ?_, ?_, ?_, ?_⟩
  · intro n
    have hb := retryState_bounds n
    simp only [retryReturn_eq, retryState, retryStep, backoffMultiplier, gt_iff_lt]
    split <;> omega
  · intro n
    simp only [retryReturn_eq, retryState, retryStep, gt_iff_lt]
  · intro n
    simp only [retryReturn_eq]
    exact (retryState_bounds n).2
  · intro c f now fetched validate writeErr backoff h hok
    unfold updateJWTSVIDTick
    cases hr : (performJWTSVIDUpdate c f fetched validate writeErr h).2 with
    | error e => rw [hr] at hok; simp [Except.isOk, Except.toBool] at hok
    | ok svids =>
      simp only [hr]
      cases svids.head? <;> exact ⟨rfl, rfl⟩

/-- Witness for C3 at a concrete input: a successful update (fetch of
one SVID, every validation passing, disk write succeeding) resets the
generator state to `initialBackoff` even from a saturated backoff. -/
theorem createRetryIntervalFunc_spec_witness :
    ((performJWTSVIDUpdate ⟨"", "", "", "d", "", "", "", "", [], 0, ""⟩ "f"
        (Except.ok [⟨5000000000⟩]) (fun _ => none) none
        ⟨none, []⟩).2).isOk = true ∧
    (updateJWTSVIDTick ⟨"", "", "", "d", "", "", "", "", [], 0, ""⟩ "f" 0
        (Except.ok [⟨5000000000⟩]) (fun _ => none) none
        maxBackoff ⟨none, []⟩).2.1 = initialBackoff :=
  ⟨by decide,
   (createRetryIntervalFunc_spec.2.2.2.2 _ "f" 0 (Except.ok [⟨5000000000⟩])
      (fun _ => none) none maxBackoff ⟨none, []⟩ (by decide)).1⟩

/-- Lookup after update on the association-list map model. -/
theorem mapGet_mapSet (m : List (String × WStatus)) (k p : String) (v : WStatus) :
    mapGet (mapSet m k v) p = if k = p then some v else mapGet m p := by
  induction m with
  | nil => simp [mapSet, mapGet]
  | cons kv rest ih =>
    obtain ⟨k0, v0⟩ := kv
    by_cases h0 : k0 = k
    · subst h0
      by_cases hp : k0 = p <;> simp [mapSet, mapGet, hp, ih]
    · by_cases hp : k0 = p
      · subst hp
        have hk : ¬(k = k0) := fun h => h0 h.symm
        simp [mapSet, mapGet, h0, hk]
      · simp [mapSet, mapGet, h0, hp, ih]

/-- The reference runner succeeds exactly when every listed step
succeeds. -/
theorem specRun_none_iff (o : StepResults) (l : List Step) :
    (specRun o l).2 = none ↔ ∀ s ∈ l, stepResult o s = none := by
  induction l with
  | nil => simp [specRun]
  | cons s rest ih =>
    cases hs : stepResult o s <;> simp_all [specRun]

/-- C1: claimed behaviour of the watch-daemon aggregate result: a
cancellation would be swallowed (success) and any other error
propagated. The source does the opposite: the non-cancellation error
is swallowed (`return nil`), while a cancellation aggregate is
returned as is. This theorem evaluates `runDaemonResult` at both
inputs, exhibiting the divergence. -/
theorem runDaemonResult_swallows_other_error :
    runDaemonResult (some (GoError.other "task failed")) = none ∧
    runDaemonResult (some GoError.canceled) = some GoError.canceled := by
  constructor <;> rfl

/-- C5: one `fetchAllCredentials` cycle equals the claim-side
reference that attempts the enabled steps in the fixed order X.509,
JWT bundle, JWT SVIDs and stops at (returning) the first failing step;
and the cycle returns success exactly when every enabled step
succeeded (vacuously when none is enabled). -/
theorem fetchAllCredentials_spec (c : Config) (o : StepResults) :
    fetchAllCredentials c o = specRun o (enabledSteps c) ∧
    ((fetchAllCredentials c o).2 = none ↔
      ∀ s ∈ enabledSteps c, stepResult o s = none) := by
  have heq : fetchAllCredentials c o = specRun o (enabledSteps c) := by
    obtain ⟨x, b, j⟩ := o
    cases hx : x509Enabled c <;> cases hb : jwtBundleEnabled c <;>
      cases hj : jwtSVIDsEnabled c <;> cases x <;> cases b <;> cases j <;>
        simp_all [fetchAllCredentials, fetchStepsJWTBundle, fetchStepsJWTSVIDs,
          enabledSteps, specRun, stepResult]
  exact ⟨heq, by rw [heq]; exact specRun_none_iff o (enabledSteps c)⟩

/-- Witness for C5 at a concrete input: all three kinds enabled, all
three steps succeeding, the cycle returns nil. -/
theorem fetchAllCredentials_spec_witness :
    (fetchAllCredentials
      ⟨"", "", "", "d", "s", "k", "b", "jb", [⟨"aud", [], "f"⟩], 0, ""⟩
      ⟨none, none, none⟩).2 = none :=
  (fetchAllCredentials_spec
    ⟨"", "", "", "d", "s", "k", "b", "jb", [⟨"aud", [], "f"⟩], 0, ""⟩
    ⟨none, none, none⟩).2.mpr (by decide)

/-- The setup fold over the configured JWT SVIDs leaves the X.509
status pointer alone. -/
theorem setupFold_x509 (c : Config) (l : List JWTConfig) (h : FileWriteStatuses) :
    (l.foldl
      (fun h j =>
        { h with jwtWriteStatus :=
            mapSet h.jwtWriteStatus (pathJoin c.certDir j.jwtSVIDFilename) .unwritten })
      h).x509WriteStatus = h.x509WriteStatus := by
  induction l generalizing h with
  | nil => rfl
  | cons j rest ih => simp [List.foldl, ih]

/-- The setup fold only ever inserts `unwritten` values. -/
theorem setupFold_unwritten (c : Config) (l : List JWTConfig) (h : FileWriteStatuses)
    (hh : ∀ p s, mapGet h.jwtWriteStatus p = some s → s = WStatus.unwritten)
    (p : String) (s : WStatus) :
    mapGet (l.foldl
      (fun h j =>
        { h with jwtWriteStatus :=
            mapSet h.jwtWriteStatus (pathJoin c.certDir j.jwtSVIDFilename) .unwritten })
      h).jwtWriteStatus p = some s → s = WStatus.unwritten := by
  induction l generalizing h with
  | nil => exact hh p s
  | cons j rest ih =>
    simp only [List.foldl]
    apply ih
    intro p0 s0 hg
    simp only [mapGet_mapSet] at hg
    split at hg
    · exact (Option.some.inj hg).symm
    · exact hh p0 s0 hg

/-- Any step into `written` is admissible. -/
theorem transitionOK_written (o : Option WStatus) :
    transitionOK o (some WStatus.written) = true := by
  simp [transitionOK]

/-- Any step into `failed` is admissible. -/
theorem transitionOK_failed (o : Option WStatus) :
    transitionOK o (some WStatus.failed) = true := by
  simp [transitionOK]

/-- An unchanged status is admissible. -/
theorem transitionOK_same (o : Option WStatus) : transitionOK o o = true := by
  simp [transitionOK]

/-- Updating the map moves the touched key to the written value and
leaves every other key unchanged, so every transition is admissible
when the written value is `written` or `failed`. -/
theorem transitionOK_mapSet (m : List (String × WStatus)) (k p : String)
    (v : WStatus) (hv : v = WStatus.written ∨ v = WStatus.failed) :
    transitionOK (mapGet m p) (mapGet (mapSet m k v) p) = true := by
  rw [mapGet_mapSet]
  split
  · cases hv with
    | inl h => rw [h]; exact transitionOK_written _
    | inr h => rw [h]; exact transitionOK_failed _
  · exact transitionOK_same _

/-- C6: every update operation that touches the health state moves
each resource's status along {U→W, U→F, W→F, F→W, W→W, F→F} only
(or leaves it unchanged), so no operation ever sets a status back to
`unwritten`; and in the state `setupHealth` builds at construction,
every tracked resource's status is `unwritten` (setup never runs on a
state that has already left `unwritten`). -/
theorem writeStatus_transitions :
    (∀ c h op r, transitionOK (statusOf h r) (statusOf (applyHealthOp c h op) r) = true) ∧
    (∀ c r, ((statusOf (newHealth c) r).all fun s => s == WStatus.unwritten) = true) := by
  constructor
  · intro c h op r
    cases op with
    | updX509 ok =>
      cases r with
      | x509Res =>
        cases ok <;>
          simp only [applyHealthOp, updateCertificatesHealth, statusOf,
            Bool.false_eq_true, if_false, if_true]
        · exact transitionOK_failed _
        · exact transitionOK_written _
      | jwtFile p =>
        cases ok <;>
          simp only [applyHealthOp, updateCertificatesHealth, statusOf,
            Bool.false_eq_true, if_false, if_true] <;>
          exact transitionOK_same _
    | updJWTBundle ok =>
      cases r with
      | x509Res =>
        cases ok <;>
          simp only [applyHealthOp, onJWTBundlesUpdateHealth, statusOf,
            Bool.false_eq_true, if_false, if_true] <;>
          exact transitionOK_same _
      | jwtFile p =>
        cases ok <;>
          simp only [applyHealthOp, onJWTBundlesUpdateHealth, statusOf,
            Bool.false_eq_true, if_false, if_true]
        · exact transitionOK_mapSet _ _ _ _ (Or.inr rfl)
        · exact transitionOK_mapSet _ _ _ _ (Or.inl rfl)
    | updJWTSVID f fetched validate writeErr =>
      cases hfv : fetchJWTSVIDs fetched validate with
      | error e =>
        cases r <;>
          simp only [applyHealthOp, performJWTSVIDUpdate, hfv, statusOf] <;>
          exact transitionOK_same _
      | ok svids =>
        cases r with
        | x509Res =>
          cases writeErr <;>
            simp only [applyHealthOp, performJWTSVIDUpdate, hfv, statusOf] <;>
            exact transitionOK_same _
        | jwtFile p =>
          cases writeErr <;>
            simp only [applyHealthOp, performJWTSVIDUpdate, hfv, statusOf]
          · exact transitionOK_mapSet _ _ _ _ (Or.inl rfl)
          · exact transitionOK_mapSet _ _ _ _ (Or.inr rfl)
  · intro c r
    cases r with
    | x509Res =>
      simp only [newHealth, setupHealth, statusOf, setupFold_x509]
      cases hx : x509Enabled c <;> cases hb : jwtBundleEnabled c <;> simp
    | jwtFile p =>
      simp only [statusOf]
      cases hg : mapGet (newHealth c).jwtWriteStatus p with
      | none => simp
      | some s =>
        have hs : s = WStatus.unwritten := by
          revert hg
          simp only [newHealth, setupHealth]
          apply setupFold_unwritten
          intro p0 s0 hg0
          cases hx : x509Enabled c <;> cases hb : jwtBundleEnabled c <;>
            simp only [hx, hb, if_pos, if_neg, Bool.false_eq_true, if_false, if_true] at hg0 <;>
            simp only [mapGet_mapSet, mapGet] at hg0 <;> first
              | (split at hg0 <;> simp_all [mapGet])
              | simp_all [mapGet]
        simp [hs]

/-- C7: `CheckReadiness` is true exactly when every tracked resource
(every entry of the JWT status map, and the X.509 status when X.509
material is enabled) is `written` — hence false whenever any tracked
resource is `unwritten` or `failed`; `CheckLiveness` is false exactly
when at least one tracked resource is `failed`, regardless of
`unwritten` entries elsewhere. The hypothesis states the program
invariant that the X.509 status pointer is non-nil whenever X.509
material is enabled (otherwise the Go code would dereference nil). -/
theorem healthChecks_spec (c : Config) (h : FileWriteStatuses)
    (hptr : x509Enabled c = true → h.x509WriteStatus.isSome = true) :
    (CheckReadiness c h = true ↔
      ((∀ kv ∈ h.jwtWriteStatus, kv.2 = WStatus.written) ∧
       (x509Enabled c = true → h.x509WriteStatus = some WStatus.written))) ∧
    (CheckLiveness c h = false ↔
      ((∃ kv ∈ h.jwtWriteStatus, kv.2 = WStatus.failed) ∨
       (x509Enabled c = true ∧ h.x509WriteStatus = some WStatus.failed))) := by
  cases hx : x509Enabled c with
  | false =>
    constructor
    · rw [CheckReadiness]
      cases hany : h.jwtWriteStatus.any (fun kv => !(kv.2 == WStatus.written)) <;>
        simp_all [List.any_eq_true, List.any_eq_false] <;>
        first
          | exact hany
          | (intro x hx0; exact hany x WStatus.failed hx0 rfl)
    · rw [CheckLiveness]
      cases hany : h.jwtWriteStatus.any (fun kv => kv.2 == WStatus.failed) <;>
        simp_all [List.any_eq_true, List.any_eq_false] <;>
        first
          | exact hany
          | (intro x hx0; exact hany x WStatus.failed hx0 rfl)
  | true =>
    obtain ⟨s, hs⟩ : ∃ s, h.x509WriteStatus = some s := by
      cases hh : h.x509WriteStatus with
      | none => exact absurd (by rw [hh] at hptr; exact hptr hx) (by simp)
      | some s => exact ⟨s, rfl⟩
    constructor
    · rw [CheckReadiness]
      cases hany : h.jwtWriteStatus.any (fun kv => !(kv.2 == WStatus.written)) <;>
        cases s <;>
          simp_all [List.any_eq_true, List.any_eq_false, derefStatus] <;>
          first
            | exact hany
            | (intro x hx0; exact hany x WStatus.failed hx0 rfl)
    · rw [CheckLiveness]
      cases hany : h.jwtWriteStatus.any (fun kv => kv.2 == WStatus.failed) <;>
        cases s <;>
          simp_all [List.any_eq_true, List.any_eq_false, derefStatus] <;>
          first
            | exact hany
            | (intro x hx0; exact hany x WStatus.failed hx0 rfl)

/-- Witness for C7 at a concrete input: X.509 enabled with a written
status and one written JWT entry — ready, and live. -/
theorem healthChecks_spec_witness :
    (x509Enabled ⟨"", "", "", "d", "s", "k", "b", "", [], 0, ""⟩ = true →
      ((some WStatus.written : Option WStatus)).isSome = true) ∧
    CheckReadiness ⟨"", "", "", "d", "s", "k", "b", "", [], 0, ""⟩
      ⟨some WStatus.written, [("d/f", WStatus.written)]⟩ = true :=
  ⟨by decide,
   (healthChecks_spec ⟨"", "", "", "d", "s", "k", "b", "", [], 0, ""⟩
      ⟨some WStatus.written, [("d/f", WStatus.written)]⟩ (by decide)).1.mpr
     (by decide)⟩

/-- C2: the zero-SVID edge case diverges from the claim. When the
issuer returns zero SVIDs for the requested audience (and the external
disk writer accepts the empty slice), the update does not take the
error path: `fetchJWTSVIDs` succeeds with the empty list, the SVID
file's status is recorded `written` for that cycle, and the success
branch of `updateJWTSVID` then evaluates `jwtSVIDs[0]` on the empty
slice — an index-out-of-range panic, modelled by the `none` ticker
interval. This theorem evaluates the embedded code at that input. -/
theorem updateJWTSVID_zero_svids :
    fetchJWTSVIDs (Except.ok []) (fun _ => none) = Except.ok [] ∧
    updateJWTSVIDInit cfgJWTOnly "f" 0 (Except.ok []) (fun _ => none) none
        ⟨none, [("d/f", WStatus.unwritten)]⟩ =
      (⟨none, [("d/f", WStatus.written)]⟩, initialBackoff, none) :=
  ⟨rfl, by decide⟩

/-- C8 counterexample: with one configured JWT SVID, take the snapshot
of the fresh sidecar, then let a successful JWT SVID update run; the
status observable through the previously returned snapshot changes
from `unwritten` to `written`, because the struct copy shares the
status map object with the sidecar. -/
theorem getHealth_snapshot_mutates :
    snapJWT (newStore cfgJWTOnly) (GetHealth (newStore cfgJWTOnly)) "d/f" =
      some WStatus.unwritten ∧
    snapJWT (performJWTSVIDUpdateStore cfgJWTOnly "f" true (newStore cfgJWTOnly))
      (GetHealth (newStore cfgJWTOnly)) "d/f" = some WStatus.written :=
  ⟨by decide, by decide⟩

/-- C8 (amended): `GetHealth` returns a shallow copy. The X.509 status
read through a previously returned snapshot is unaffected by later
X.509 status updates, because each update allocates a fresh status
string and swaps the pointer; a JWT status update however becomes
visible through every previously returned snapshot, because all copies
share the one status map object. The hypothesis states that the
snapshot's pointer was allocated by the store. -/
theorem getHealth_shallow_copy (st : SidecarStore) (snap : HealthSnap)
    (hv : ∀ a, snap.x509Ptr = some a → a < st.nextAddr) (ok : Bool)
    (p : String) (v : WStatus) :
    snapX509 (updateCertificatesStore ok st) snap = snapX509 st snap ∧
    snapJWT (setJWTStatusStore p v st) (GetHealth st) p = some v := by
  constructor
  · cases hsp : snap.x509Ptr with
    | none => simp [snapX509, hsp]
    | some a =>
      have ha := hv a hsp
      simp only [snapX509, hsp, updateCertificatesStore, cellGet]
      rw [if_neg (by omega)]
  · simp [snapJWT, setJWTStatusStore, mapGet_mapSet]

/-- Witness for C8's amended theorem at a concrete store: one
allocated cell, pointer to it; an X.509 failure update does not change
what the old snapshot observes. -/
theorem getHealth_shallow_copy_witness :
    (∀ a, (⟨some 0⟩ : HealthSnap).x509Ptr = some a →
      a < (⟨[(0, WStatus.unwritten)], 1, [], some 0⟩ : SidecarStore).nextAddr) ∧
    snapX509 (updateCertificatesStore false ⟨[(0, WStatus.unwritten)], 1, [], some 0⟩)
        ⟨some 0⟩ =
      snapX509 ⟨[(0, WStatus.unwritten)], 1, [], some 0⟩ ⟨some 0⟩ :=
  ⟨fun a ha => by injection ha with h2; subst h2; decide,
   (getHealth_shallow_copy ⟨[(0, WStatus.unwritten)], 1, [], some 0⟩ ⟨some 0⟩
      (fun a ha => by injection ha with h2; subst h2; decide) false "p" WStatus.written).1⟩

/-- From a running state, every `signalProcess` invocation takes the
signal branch: it delivers the renewal signal to the stored process
and changes nothing, whatever its `cmd.Start` oracle. -/
theorem signalProcessRun_running (c : Config) (starts : List (Option Nat)) (pid : Nat) :
    signalProcessRun c starts ⟨true, some pid⟩ =
      (⟨true, some pid⟩, starts.map fun _ => SignalOutcome.signaled (some pid)) := by
  induction starts with
  | nil => rfl
  | cons o rest ih => simp [signalProcessRun, signalProcessStep, ih]

/-- C9: N concurrent invocations of `signalProcess` from the
no-child-running state serialise under `s.mu` into a sequence of
steps. Whatever the later `cmd.Start` oracles, when the command
arguments parse and the first start succeeds with pid `pid`, exactly
the first invocation spawns (a single spawn) and each of the other
N−1 invocations delivers the renewal signal to that same process;
the flag and handle end up set. Two simultaneous spawns cannot occur:
after the spawning step the flag is up, and every later step takes
the signal branch. -/
theorem signalProcess_spec (c : Config) (pid : Nat) (rest : List (Option Nat))
    (hargs : (getCmdArgs c.cmdArgs).isOk = true) :
    signalProcessRun c (some pid :: rest) ⟨false, none⟩ =
      (⟨true, some pid⟩,
        SignalOutcome.spawned pid :: rest.map fun _ => SignalOutcome.signaled (some pid)) := by
  cases hca : getCmdArgs c.cmdArgs with
  | error e => rw [hca] at hargs; simp [Except.isOk, Except.toBool] at hargs
  | ok l =>
    simp [signalProcessRun, signalProcessStep, hca, signalProcessRun_running]

/-- Witness for C9 at a concrete input: empty command arguments, three
serialised invocations, the first start yielding pid 7. -/
theorem signalProcess_spec_witness :
    (getCmdArgs cfgJWTOnly.cmdArgs).isOk = true ∧
    signalProcessRun cfgJWTOnly [some 7, none, some 9] ⟨false, none⟩ =
      (⟨true, some 7⟩,
        [SignalOutcome.spawned 7, SignalOutcome.signaled (some 7),
         SignalOutcome.signaled (some 7)]) :=
  ⟨by decide, by rw [signalProcess_spec cfgJWTOnly 7 [none, some 9] (by decide)]; rfl⟩

theorem fieldChar_spec (c : Char) : fieldChar c = true ↔ (¬c = ' ' ∧ ¬c = '\n') := by
  simp [fieldChar]

theorem contains_false_of_not_mem (l : List Char) (c : Char) (h : c ∉ l) :
    l.contains c = false := by
  induction l with
  | nil => rfl
  | cons x xs ih =>
    simp only [List.contains_cons, Bool.or_eq_false_iff]
    refine ⟨?_, ih fun hm => h (List.mem_cons_of_mem _ hm)⟩
    simp only [beq_eq_false_iff_ne, ne_eq]
    intro he
    exact h (he ▸ List.mem_cons_self _ _)

theorem mem_of_mem_dropWhileChar (p : Char → Bool) (l : List Char) (c : Char)
    (h : c ∈ l.dropWhile p) : c ∈ l := by
  induction l with
  | nil => simp [List.dropWhile] at h
  | cons x xs ih =>
    rw [List.dropWhile_cons] at h
    split at h
    · exact List.mem_cons_of_mem _ (ih h)
    · exact h

theorem mem_of_mem_takeWhileChar (p : Char → Bool) (l : List Char) (c : Char)
    (h : c ∈ l.takeWhile p) : c ∈ l := by
  induction l with
  | nil => simp [List.takeWhile] at h
  | cons x xs ih =>
    rw [List.takeWhile_cons] at h
    split at h
    · rcases List.mem_cons.mp h with h1 | h2
      · exact h1 ▸ List.mem_cons_self _ _
      · exact List.mem_cons_of_mem _ (ih h2)
    · simp at h

theorem dropWhile_head_false (p : Char → Bool) (l : List Char) (c : Char) (r : List Char)
    (h : l.dropWhile p = c :: r) : p c = false := by
  induction l with
  | nil => simp [List.dropWhile] at h
  | cons x xs ih =>
    rw [List.dropWhile_cons] at h
    split at h
    · exact ih h
    · next hp =>
      injection h with h1 h2
      subst h1
      simpa using hp

theorem dropWhileChar_length_le (p : Char → Bool) (l : List Char) :
    (l.dropWhile p).length ≤ l.length := by
  induction l with
  | nil => simp
  | cons x xs ih =>
    rw [List.dropWhile_cons]
    split
    · simp
      omega
    · simp

theorem spaceFields_dropWhile_nil (l : List Char)
    (hd : l.dropWhile fieldChar = []) :
    spaceFields l = [l.takeWhile fieldChar] := by
  induction l with
  | nil => rfl
  | cons c rest ih =>
    rw [List.dropWhile_cons] at hd
    split at hd
    · next hc =>
      have hcs : ¬c = ' ' := ((fieldChar_spec c).1 hc).1
      have ih2 := ih hd
      simp only [spaceFields, if_neg hcs, ih2, List.takeWhile_cons, if_pos hc]
    · simp at hd

theorem spaceFields_dropWhile_cons (l r : List Char)
    (hd : l.dropWhile fieldChar = ' ' :: r) :
    spaceFields l = l.takeWhile fieldChar :: spaceFields r := by
  induction l with
  | nil => simp [List.dropWhile] at hd
  | cons c rest ih =>
    rw [List.dropWhile_cons] at hd
    split at hd
    · next hc =>
      have hcs : ¬c = ' ' := ((fieldChar_spec c).1 hc).1
      have ih2 := ih hd
      simp only [spaceFields, if_neg hcs, ih2, List.takeWhile_cons, if_pos hc]
    · next hc =>
      injection hd with h1 h2
      subst h1
      subst h2
      simp [spaceFields, List.takeWhile_cons, fieldChar]

theorem parseField_plain : ∀ (n : Nat) (l : List Char), l.length ≤ n →
    ∀ fields, (∀ c ∈ l, ¬c = '"' ∧ ¬c = '\n') →
    parseField l fields = .ok ((fields ++ spaceFields l).map String.mk) := by
  intro n
  induction n with
  | zero =>
    intro l hl fields h
    have hnil : l = [] := List.length_eq_zero.mp (Nat.le_zero.mp hl)
    subst hnil
    simp [parseField, spaceFields]
  | succ n ih =>
    intro l hl fields h
    match l with
    | [] => simp [parseField, spaceFields]
    | c :: rest =>
      have hq : ¬c = '"' := (h c (List.mem_cons_self _ _)).1
      have hqf : ((c :: rest).takeWhile fieldChar).contains '"' = false := by
        apply contains_false_of_not_mem
        intro hm
        exact (h _ (mem_of_mem_takeWhileChar _ _ _ hm)).1 rfl
      simp only [parseField]
      rw [if_neg hq, if_neg (fun hco => Bool.false_ne_true (hqf ▸ hco))]
      split
      · next c2 rest2 heq =>
        have hc2false : fieldChar c2 = false := dropWhile_head_false _ _ _ _ heq
        have hc2mem : c2 ∈ c :: rest :=
          mem_of_mem_dropWhileChar fieldChar _ _ (heq ▸ List.mem_cons_self _ _)
        have hc2 : c2 = ' ' := by
          have hnl := (h c2 hc2mem).2
          have := (fieldChar_spec c2)
          rcases eq_or_ne c2 ' ' with hsp | hsp
          · exact hsp
          · exact absurd (this.2 ⟨hsp, hnl⟩) (by simp [hc2false])
        rw [if_pos hc2]
        have hlen : rest2.length ≤ n := by
          have h1 := dropWhileChar_length_le fieldChar (c :: rest)
          rw [heq] at h1
          simp only [List.length_cons] at h1 hl
          omega
        have hmem : ∀ x ∈ rest2, ¬x = '"' ∧ ¬x = '\n' := by
          intro x hx
          exact h x (mem_of_mem_dropWhileChar fieldChar _ _
            (heq ▸ List.mem_cons_of_mem _ hx))
        rw [ih rest2 hlen (fields ++ [(c :: rest).takeWhile fieldChar]) hmem]
        rw [spaceFields_dropWhile_cons (c :: rest) rest2 (by rw [← hc2]; exact heq)]
        simp
      · next heq =>
        rw [spaceFields_dropWhile_nil _ heq]

theorem parseField_step_space (c : Char) (rest rest2 : List Char)
    (fields : List (List Char)) (hq : ¬c = '"')
    (hqf : ((c :: rest).takeWhile fieldChar).contains '"' = false)
    (hd : (c :: rest).dropWhile fieldChar = ' ' :: rest2) :
    parseField (c :: rest) fields =
      parseField rest2 (fields ++ [(c :: rest).takeWhile fieldChar]) := by
  simp only [parseField]
  rw [if_neg hq, if_neg (fun hco => Bool.false_ne_true (hqf ▸ hco))]
  split
  · next c2 r2 heq =>
    have h12 := (hd.symm.trans heq)
    injection h12 with h1 h2
    subst h1
    subst h2
    rw [if_pos rfl]
  · next heq =>
    exact absurd (hd.symm.trans heq) (by simp)

theorem parseField_step_done (c : Char) (rest : List Char) (c2 : Char)
    (rest2 : List Char) (fields : List (List Char)) (hq : ¬c = '"')
    (hqf : ((c :: rest).takeWhile fieldChar).contains '"' = false)
    (hd : (c :: rest).dropWhile fieldChar = c2 :: rest2) (hc2 : ¬c2 = ' ') :
    parseField (c :: rest) fields =
      .ok ((fields ++ [(c :: rest).takeWhile fieldChar]).map String.mk) := by
  simp only [parseField]
  rw [if_neg hq, if_neg (fun hco => Bool.false_ne_true (hqf ▸ hco))]
  split
  · next c3 r3 heq =>
    have h12 := (hd.symm.trans heq)
    injection h12 with h1 h2
    subst h1
    subst h2
    rw [if_neg hc2]
  · next heq =>
    exact absurd (hd.symm.trans heq) (by simp)

theorem parseQuoted_closed (b : List Char) :
    ∀ (acc : List Char) (fields : List (List Char)), (∀ c ∈ b, ¬c = '"') →
    parseQuoted (b ++ ['"']) acc fields = .ok ((fields ++ [acc ++ b]).map String.mk) := by
  induction b with
  | nil =>
    intro acc fields h
    rw [List.nil_append]
    simp [parseQuoted]
  | cons c rest ih =>
    intro acc fields h
    have hc : ¬c = '"' := h c (List.mem_cons_self _ _)
    cases hre : rest ++ ['"'] with
    | nil => exact absurd hre (by simp)
    | cons c2 rr =>
      rw [List.cons_append, hre]
      simp only [parseQuoted]
      rw [if_neg hc, ← hre]
      rw [ih (acc ++ [c]) fields (fun x hx => h x (List.mem_cons_of_mem _ hx))]
      simp

theorem parseQuoted_unterminated (b : List Char) :
    ∀ (acc : List Char) (fields : List (List Char)), (∀ c ∈ b, ¬c = '"') →
    parseQuoted b acc fields = .error .quote := by
  induction b with
  | nil =>
    intro acc fields h
    simp [parseQuoted]
  | cons c rest ih =>
    intro acc fields h
    have hc : ¬c = '"' := h c (List.mem_cons_self _ _)
    cases rest with
    | nil =>
      simp only [parseQuoted]
      rw [if_neg hc]
    | cons c2 rr =>
      simp only [parseQuoted]
      rw [if_neg hc]
      exact ih _ _ (fun x hx => h x (List.mem_cons_of_mem _ hx))

theorem normalizeCRLF_no_cr (l : List Char) (h : ∀ c ∈ l, ¬c = '\r') :
    normalizeCRLF l = l := by
  induction l with
  | nil => rfl
  | cons c rest ih =>
    cases rest with
    | nil =>
      simp only [normalizeCRLF]
      rw [if_neg (h c (List.mem_cons_self _ _))]
    | cons c2 rest2 =>
      have hc : ¬c = '\r' := h c (List.mem_cons_self _ _)
      have ih2 := ih (fun x hx => h x (List.mem_cons_of_mem _ hx))
      simp only [normalizeCRLF, if_neg hc, ih2]

theorem skipBlankLines_no_nl (c : Char) (rest : List Char) (h : ¬c = '\n') :
    skipBlankLines (c :: rest) = c :: rest := by
  simp [skipBlankLines, h]

theorem stringMk_ne_empty (l : List Char) (h : l ≠ []) : ¬(String.mk l = "") := by
  intro he
  apply h
  have := congrArg String.data he
  simpa using this

theorem csvReadRecord_startChar (c : Char) (rest : List Char)
    (hcr : ∀ x ∈ c :: rest, ¬x = '\r') (hnl : ¬c = '\n') :
    csvReadRecord (String.mk (c :: rest)) = parseField (c :: rest) [] := by
  simp only [csvReadRecord]
  rw [normalizeCRLF_no_cr _ hcr, skipBlankLines_no_nl c rest hnl]

/-- C10: `getCmdArgs` on the empty argument string returns an empty
argument list and no error. For non-empty strings it returns the
space-delimited fields of the first CSV record with double-quote
quoting honoured, or an error when the string is not parseable as such
a record, witnessed here on characteristic families: a quote-free and
newline-free string splits into exactly its space-delimited fields; a
fully quoted field (spaces allowed inside) is returned verbatim as one
field; an unterminated quoted field is an `ErrQuote` parse error; and
only the first record (first line) of a multi-line string is
returned. -/
theorem getCmdArgs_spec :
    getCmdArgs "" = .ok [] ∧
    (∀ l : List Char, l ≠ [] → (∀ c ∈ l, ¬c = '"' ∧ ¬c = '\n' ∧ ¬c = '\r') →
      getCmdArgs (String.mk l) = .ok ((spaceFields l).map String.mk)) ∧
    (∀ b : List Char, (∀ c ∈ b, ¬c = '"' ∧ ¬c = '\r') →
      getCmdArgs (String.mk ('"' :: b ++ ['"'])) = .ok [String.mk b]) ∧
    (∀ b : List Char, (∀ c ∈ b, ¬c = '"' ∧ ¬c = '\r') →
      getCmdArgs (String.mk ('"' :: b)) = .error .quote) ∧
    getCmdArgs "a b\nc d" = .ok ["a", "b"] := by
  refine ⟨rfl, ?_, ?_, ?_, ?_⟩
  · intro l hl h
    match l, hl with
    | c :: rest, _ =>
      simp only [getCmdArgs]
      rw [if_neg (stringMk_ne_empty _ (by simp))]
      rw [csvReadRecord_startChar c rest (fun x hx => (h x hx).2.2)
        (h c (List.mem_cons_self _ _)).2.1]
      rw [parseField_plain (c :: rest).length (c :: rest) (Nat.le_refl _) []
        (fun x hx => ⟨(h x hx).1, (h x hx).2.1⟩)]
      simp
  · intro b h
    rw [show ('"' :: b) ++ ['"'] = '"' :: (b ++ ['"']) from rfl]
    simp only [getCmdArgs]
    rw [if_neg (stringMk_ne_empty _ (by simp))]
    rw [csvReadRecord_startChar '"' (b ++ ['"']) ?hcr (by decide)]
    case hcr =>
      intro x hx
      rcases List.mem_cons.mp hx with h1 | h2
      · subst h1; decide
      · rcases List.mem_append.mp h2 with h3 | h4
        · exact (h x h3).2
        · simp only [List.mem_singleton] at h4; subst h4; decide
    simp only [parseField]
    rw [if_pos trivial]
    rw [parseQuoted_closed b [] [] (fun x hx => (h x hx).1)]
    simp
  · intro b h
    simp only [getCmdArgs]
    rw [if_neg (stringMk_ne_empty _ (by simp))]
    rw [csvReadRecord_startChar '"' b ?hcr2 (by decide)]
    case hcr2 =>
      intro x hx
      rcases List.mem_cons.mp hx with h1 | h2
      · subst h1; decide
      · exact (h x h2).2
    simp only [parseField]
    rw [if_pos trivial]
    exact parseQuoted_unterminated b [] [] (fun x hx => (h x hx).1)
  · rw [show ("a b\nc d" : String) = String.mk ['a', ' ', 'b', '\n', 'c', ' ', 'd'] from rfl]
    simp only [getCmdArgs]
    rw [if_neg (stringMk_ne_empty _ (by simp))]
    rw [csvReadRecord_startChar 'a' [' ', 'b', '\n', 'c', ' ', 'd'] (by decide) (by decide)]
    rw [parseField_step_space 'a' [' ', 'b', '\n', 'c', ' ', 'd'] ['b', '\n', 'c', ' ', 'd'] []
      (by decide) (by decide) (by decide)]
    rw [show List.takeWhile fieldChar ['a', ' ', 'b', '\n', 'c', ' ', 'd'] = ['a'] from by decide,
      List.nil_append]
    rw [parseField_step_done 'b' ['\n', 'c', ' ', 'd'] '\n' ['c', ' ', 'd'] [['a']]
      (by decide) (by decide) (by decide) (by decide)]
    rw [show List.takeWhile fieldChar ['b', '\n', 'c', ' ', 'd'] = ['b'] from by decide]
    rfl

/-- Witness for C10 at concrete inputs: the quote-free clause applied
to the two-field string `a b`. -/
theorem getCmdArgs_spec_witness :
    (['a', ' ', 'b'] : List Char) ≠ [] ∧
    getCmdArgs (String.mk ['a', ' ', 'b']) =
      .ok ((spaceFields ['a', ' ', 'b']).map String.mk) :=
  ⟨by decide, getCmdArgs_spec.2.1 ['a', ' ', 'b'] (by decide) (by decide)⟩
